import Mathlib

/-!
Verification of the session-booking server actions of the mentor-user
repository: `cleanupExpiredReservations` and `isSessionAvailable`.

The session store is modelled as a list of session records.  Times
(`date`, `startTime`, `endTime`) are strings, compared lexicographically
as the database compares them; instants (`reservationExpires`, `now`)
are naturals.  Each server action is embedded as a state transformer
returning its result together with the session store after the call.
-/

/-- Lexicographic string comparison, modelling the database's ordering of
string-typed fields.  Defined on the character list so that it both
evaluates by `decide` and inherits the `LinearOrder` API. -/
def strLt (a b : String) : Bool := decide (a.toList < b.toList)

/-- Non-strict companion of `strLt`. -/
def strLe (a b : String) : Bool := decide (a.toList ≤ b.toList)

/-- Session status enumeration: the two status values the server actions
consult (`SessionStatus.RESERVED`, `SessionStatus.CONFIRMED`). -/
inductive SessionStatus where
  | RESERVED
  | CONFIRMED
  deriving DecidableEq

/-- A session document: a booking between a mentee and a mentor, with a
date, start/end time, a status and, when reserved, an expiry instant. -/
structure SessionRec where
  _id : String
  menteeId : String
  mentorId : String
  date : String
  startTime : String
  endTime : String
  status : SessionStatus
  reservationExpires : Option Nat
  deriving DecidableEq

/-- The overlap predicate of the availability query: the three-way
disjunction of `$and` clauses comparing an existing session's
`startTime`/`endTime` against the queried slot, as strings. -/
def overlapQueryB (eStart eEnd qStart qEnd : String) : Bool :=
  (strLe eStart qStart && strLt qStart eEnd) ||
  (strLt eStart qEnd && strLe qEnd eEnd) ||
  (strLe qStart eStart && strLe eEnd qEnd)

/-- Two half-open string ranges genuinely overlap: each starts before the
other ends. -/
def rangesOverlapB (eStart eEnd qStart qEnd : String) : Bool :=
  strLt eStart qEnd && strLt qStart eEnd

/-- A reservation is live at `now` when its expiry lies strictly in the
future (`reservationExpires: \x7b $gt: now \x7d`); a record without the
field never matches. -/
def liveB (now : Nat) (s : SessionRec) : Bool :=
  match s.reservationExpires with
  | some e => decide (now < e)
  | none => false

/-- The status clause of the availability query: confirmed, or reserved
with a live expiry. -/
def activeB (now : Nat) (s : SessionRec) : Bool :=
  decide (s.status = SessionStatus.CONFIRMED) ||
  (decide (s.status = SessionStatus.RESERVED) && liveB now s)

/-- A document matches the availability query: same mentor, same date,
query-overlapping time range, and active status. -/
def matchesQuery (mentorId dateStr startTime endTime : String) (now : Nat)
    (s : SessionRec) : Bool :=
  decide (s.mentorId = mentorId) && decide (s.date = dateStr) &&
  overlapQueryB s.startTime s.endTime startTime endTime &&
  activeB now s

/-- A document matches the cleanup query: `reservationExpires` strictly
before `now` and status reserved. -/
def expiredHold (now : Nat) (s : SessionRec) : Bool :=
  (match s.reservationExpires with
   | some e => decide (e < now)
   | none => false) &&
  decide (s.status = SessionStatus.RESERVED)

/-- Result object of `cleanupExpiredReservations`: the success case with
its counts, or the caught-error case. -/
inductive CleanupResult where
  | ok (deletedCount totalProcessed : Nat)
  | err (error : String)
  deriving DecidableEq

/-- The `success` flag carried by a cleanup result object. -/
def CleanupResult.success : CleanupResult → Bool
  | .ok _ _ => true
  | .err _ => false

/-- `cleanupExpiredReservations`: find the sessions whose reservation has
expired, delete them by id, and report the counts.  Returns the result
object and the session store after the call. -/
def cleanupExpiredReservations (now : Nat) (db : List SessionRec) :
    CleanupResult × List SessionRec :=
  let sessionsToCleanup := db.filter (expiredHold now)
  if sessionsToCleanup.length > 0 then
    let ids := sessionsToCleanup.map (fun s => s._id)
    let remaining := db.filter (fun s => !(ids.contains s._id))
    (CleanupResult.ok (db.countP (fun s => ids.contains s._id))
      sessionsToCleanup.length, remaining)
  else
    (CleanupResult.ok 0 0, db)

/-- Result object of `isSessionAvailable`; fields absent from a given
return object are `none`. -/
structure AvailResult where
  available : Bool
  reason : Option String := none
  expiresAt : Option Nat := none
  reservedForCurrentUser : Option Bool := none
  reservationExpires : Option Nat := none
  deriving DecidableEq

/-- Body of the availability check after slot parsing: query the
conflicting sessions, then branch on confirmed sessions, reservations
held by the current user, and reservations held by others. -/
def checkSlot (mentorId dateStr startTime endTime : String)
    (userId : Option String) (now : Nat) (db : List SessionRec) : AvailResult :=
  let existingSessions := db.filter (matchesQuery mentorId dateStr startTime endTime now)
  if existingSessions.length = 0 then
    { available := true }
  else
    let confirmedSessions :=
      existingSessions.filter (fun s => decide (s.status = SessionStatus.CONFIRMED))
    if confirmedSessions.length > 0 then
      { available := false, reason := some "This time slot is already booked" }
    else
      let reservedSessions :=
        existingSessions.filter (fun s => decide (s.status = SessionStatus.RESERVED))
      if reservedSessions.length > 0 then
        let fromUser :=
          match userId with
          | some uid => reservedSessions.find? (fun (s : SessionRec) => decide (s.menteeId = uid))
          | none => none
        match fromUser with
        | some userReservedSession =>
          { available := true, reservedForCurrentUser := some true,
            reservationExpires := userReservedSession.reservationExpires }
        | none =>
          { available := false, reason := some "This time slot is temporarily reserved",
            expiresAt := reservedSessions.head?.bind (fun s => s.reservationExpires) }
      else
        { available := true }

/-- Split of a character list at every occurrence of the separator,
keeping empty fields: the semantics of splitting a string on a
single-character separator. -/
def splitOnChar (c : Char) : List Char → List (List Char)
  | [] => [[]]
  | a :: as =>
    if a = c then [] :: splitOnChar c as
    else
      match splitOnChar c as with
      | [] => [[a]]
      | h :: t => (a :: h) :: t

/-- The slot descriptor split on underscores. -/
def splitUnderscores (s : String) : List String :=
  (splitOnChar '_' s.toList).map String.mk

/-- Parsing of the slot descriptor `mentorId_date_startTime_endTime`:
split on underscores and require the four leading components to be
present and non-empty. -/
def parseSlot (slotInfo : String) : Option (String × String × String × String) :=
  match splitUnderscores slotInfo with
  | mentorId :: dateStr :: startTime :: endTime :: _ =>
    if mentorId = "" ∨ dateStr = "" ∨ startTime = "" ∨ endTime = "" then none
    else some (mentorId, dateStr, startTime, endTime)
  | _ => none

/-- `isSessionAvailable`: parse the slot descriptor, reject invalid input,
otherwise run the availability check.  Returns the result object and the
session store after the call. -/
def isSessionAvailable (slotInfo : String) (userId : Option String) (now : Nat)
    (db : List SessionRec) : AvailResult × List SessionRec :=
  match parseSlot slotInfo with
  | none => ({ available := false, reason := some "Invalid slot information" }, db)
  | some (m, d, s, e) => (checkSlot m d s e userId now db, db)

/-- `cleanupExpiredReservations` with its try/catch boundary: a failing
database interaction is modelled as an `Except.error`, which the catch
branch converts into the error result object. -/
def cleanupExpiredReservationsE (now : Nat)
    (dbE : Except String (List SessionRec)) : CleanupResult :=
  match dbE with
  | .ok db => (cleanupExpiredReservations now db).1
  | .error e => CleanupResult.err e

/-- `isSessionAvailable` with its try/catch boundary: a failing database
interaction is converted into the unavailable result object with reason
"Error checking availability". -/
def isSessionAvailableE (slotInfo : String) (userId : Option String) (now : Nat)
    (dbE : Except String (List SessionRec)) : AvailResult :=
  match dbE with
  | .ok db => (isSessionAvailable slotInfo userId now db).1
  | .error _ => { available := false, reason := some "Error checking availability" }

/-- Two session records conflict at `now`: same mentor, same date,
genuinely overlapping time ranges, and both counting against the slot
(confirmed, or a live reservation). -/
def conflictB (now : Nat) (a b : SessionRec) : Bool :=
  decide (a.mentorId = b.mentorId) && decide (a.date = b.date) &&
  rangesOverlapB a.startTime a.endTime b.startTime b.endTime &&
  activeB now a && activeB now b

/-- The booking invariant: no two records of the store conflict. -/
def conflictFree (now : Nat) (db : List SessionRec) : Prop :=
  db.Pairwise (fun a b => conflictB now a b = false)

/-- Every record's time range is well formed (start strictly before end). -/
def WellFormedDB (db : List SessionRec) : Prop :=
  ∀ s ∈ db, strLt s.startTime s.endTime = true

/-- A database state: the session store plus the current instant. -/
structure DBState where
  sessions : List SessionRec
  now : Nat

/-- The availability result on which a booking proceeds by inserting a
new record: available, and not merely because the requester already
holds the slot. -/
def bookGuard (r : AvailResult) : Bool :=
  r.available && r.reservedForCurrentUser.isNone

/-- Modelled from the spec: the operations that create and confirm
bookings are not in the repository sources (only the availability check
and the cleanup sweep are).  Following the spec's description of the
booking flow as a check-then-act sequence over the same store — a
reservation hold is taken only when the availability check passes, and a
hold that is void (expired) cannot be confirmed — each operation is one
atomic step: time moves forward, the cleanup sweep runs, a reservation
is inserted after a passing availability check, or a live reservation is
confirmed. -/
inductive Step : DBState → DBState → Prop where
  | tick (st : DBState) (t : Nat) (h : st.now ≤ t) : Step st ⟨st.sessions, t⟩
  | cleanup (st : DBState) :
      Step st ⟨(cleanupExpiredReservations st.now st.sessions).2, st.now⟩
  | book (st : DBState) (rec : SessionRec) (uid : Option String)
      (hg : bookGuard (checkSlot rec.mentorId rec.date rec.startTime rec.endTime
              uid st.now st.sessions) = true)
      (hst : rec.status = SessionStatus.RESERVED)
      (hwf : strLt rec.startTime rec.endTime = true) :
      Step st ⟨rec :: st.sessions, st.now⟩
  | confirm (st : DBState) (l r : List SessionRec) (s : SessionRec)
      (hdb : st.sessions = l ++ s :: r)
      (hs : s.status = SessionStatus.RESERVED)
      (hl : liveB st.now s = true) :
      Step st ⟨l ++ { s with status := SessionStatus.CONFIRMED } :: r, st.now⟩

/-- A database state reachable from the empty store. -/
def Reachable (st : DBState) : Prop :=
  Relation.ReflTransGen Step ⟨[], 0⟩ st

/-- A booking request: the slot a client wants and the client's id. -/
structure SlotReq where
  mentorId : String
  date : String
  startTime : String
  endTime : String
  uid : String

/-- The reservation record a booking request inserts. -/
def mkReservation (p : SlotReq) (sid : String) (exp : Nat) : SessionRec :=
  ⟨sid, p.uid, p.mentorId, p.date, p.startTime, p.endTime,
    SessionStatus.RESERVED, some exp⟩

/-- Program counter of one client running the check-then-book sequence. -/
inductive CPhase where
  | start
  | checked (r : AvailResult)
  | done (success : Bool)
  deriving DecidableEq

/-- A state of two clients booking concurrently over a shared store. -/
structure CState where
  sessions : List SessionRec
  now : Nat
  pc1 : CPhase
  pc2 : CPhase

/-- Modelled from the spec: the interleaved semantics of two concurrent
check-then-book sequences.  The availability check and the insert are
separate atomic database operations (the spec notes the application adds
no concurrency control of its own), so the steps of the two clients may
interleave: each client first runs the availability check against the
current store, then, if the check passed, inserts its reservation. -/
inductive CStep (p1 p2 : SlotReq) : CState → CState → Prop where
  | check1 (db : List SessionRec) (now : Nat) (pc2 : CPhase) :
      CStep p1 p2 ⟨db, now, CPhase.start, pc2⟩
        ⟨db, now, CPhase.checked (checkSlot p1.mentorId p1.date p1.startTime
          p1.endTime (some p1.uid) now db), pc2⟩
  | check2 (db : List SessionRec) (now : Nat) (pc1 : CPhase) :
      CStep p1 p2 ⟨db, now, pc1, CPhase.start⟩
        ⟨db, now, pc1, CPhase.checked (checkSlot p2.mentorId p2.date p2.startTime
          p2.endTime (some p2.uid) now db)⟩
  | insert1 (db : List SessionRec) (now : Nat) (pc2 : CPhase) (r : AvailResult)
      (sid : String) (exp : Nat) (h : bookGuard r = true) :
      CStep p1 p2 ⟨db, now, CPhase.checked r, pc2⟩
        ⟨mkReservation p1 sid exp :: db, now, CPhase.done true, pc2⟩
  | insert2 (db : List SessionRec) (now : Nat) (pc1 : CPhase) (r : AvailResult)
      (sid : String) (exp : Nat) (h : bookGuard r = true) :
      CStep p1 p2 ⟨db, now, pc1, CPhase.checked r⟩
        ⟨mkReservation p2 sid exp :: db, now, pc1, CPhase.done true⟩
  | fail1 (db : List SessionRec) (now : Nat) (pc2 : CPhase) (r : AvailResult)
      (h : bookGuard r = false) :
      CStep p1 p2 ⟨db, now, CPhase.checked r, pc2⟩ ⟨db, now, CPhase.done false, pc2⟩
  | fail2 (db : List SessionRec) (now : Nat) (pc1 : CPhase) (r : AvailResult)
      (h : bookGuard r = false) :
      CStep p1 p2 ⟨db, now, pc1, CPhase.checked r⟩ ⟨db, now, pc1, CPhase.done false⟩

/-- Concrete booking request of client one used in the interleaving
counterexample. -/
def reqA : SlotReq := ⟨"m1", "2025-01-01", "10:00", "11:00", "u1"⟩

/-- Concrete booking request of client two, overlapping `reqA`. -/
def reqB : SlotReq := ⟨"m1", "2025-01-01", "10:30", "11:30", "u2"⟩

/-- The reservation client one inserts. -/
def bookedA : SessionRec := mkReservation reqA "sidA" 50

/-- The reservation client two inserts. -/
def bookedB : SessionRec := mkReservation reqB "sidB" 60

/-- A confirmed session used in concrete counterexamples. -/
def recConfirmed : SessionRec :=
  ⟨"id2", "u2", "m", "2024-05-05", "10:30", "11:30", SessionStatus.CONFIRMED, none⟩

/-- A live reservation held by user u1, used in concrete witnesses. -/
def recOwnHold : SessionRec :=
  ⟨"id1", "u1", "m", "2024-05-05", "10:00", "11:00", SessionStatus.RESERVED, some 100⟩

/-- An expired reservation hold, used in concrete witnesses. -/
def recExpired : SessionRec :=
  ⟨"id3", "u3", "m", "2024-05-05", "10:00", "11:00", SessionStatus.RESERVED, some 5⟩

/-- Bridge from the boolean strict comparison to the list order. -/
theorem strLt_iff {a b : String} : strLt a b = true ↔ a.toList < b.toList := by
  simp [strLt]

/-- Bridge from the boolean non-strict comparison to the list order. -/
theorem strLe_iff {a b : String} : strLe a b = true ↔ a.toList ≤ b.toList := by
  simp [strLe]

/-- For well-formed ranges, the query's three-way disjunction coincides
with genuine range overlap. -/
theorem overlapQueryB_eq_overlap (es ee qs qe : String)
    (hs : strLt es ee = true) (hq : strLt qs qe = true) :
    overlapQueryB es ee qs qe = true ↔ rangesOverlapB es ee qs qe = true := by
  rw [strLt_iff] at hs hq
  simp only [overlapQueryB, rangesOverlapB, Bool.or_eq_true, Bool.and_eq_true,
    strLt_iff, strLe_iff]
  constructor
  · rintro ((⟨h1, h2⟩ | ⟨h1, h2⟩) | ⟨h1, h2⟩)
    · exact ⟨lt_of_le_of_lt h1 hq, h2⟩
    · exact ⟨h1, lt_of_lt_of_le hq h2⟩
    · exact ⟨lt_of_lt_of_le hs h2, lt_of_le_of_lt h1 hs⟩
  · rintro ⟨h1, h2⟩
    rcases le_or_lt es.toList qs.toList with h3 | h3
    · exact Or.inl (Or.inl ⟨h3, h2⟩)
    · rcases le_or_lt qe.toList ee.toList with h4 | h4
      · exact Or.inl (Or.inr ⟨h1, h4⟩)
      · exact Or.inr ⟨le_of_lt h3, le_of_lt h4⟩

/-- Genuine overlap is symmetric in the two ranges. -/
theorem rangesOverlapB_symm (a b c d : String) :
    rangesOverlapB a b c d = rangesOverlapB c d a b := by
  simp [rangesOverlapB, Bool.and_comm]

/-- An active record is confirmed or a live reservation. -/
theorem activeB_cases {now : Nat} {s : SessionRec} (h : activeB now s = true) :
    s.status = SessionStatus.CONFIRMED ∨
      (s.status = SessionStatus.RESERVED ∧ liveB now s = true) := by
  simp only [activeB, Bool.or_eq_true, Bool.and_eq_true, decide_eq_true_eq] at h
  tauto

/-- An active reserved record is a live reservation. -/
theorem activeB_reserved {now : Nat} {s : SessionRec} (ha : activeB now s = true)
    (hs : s.status = SessionStatus.RESERVED) : liveB now s = true := by
  rcases activeB_cases ha with h | h
  · rw [hs] at h
    exact SessionStatus.noConfusion h
  · exact h.2

/-- A live reservation carries an expiry instant. -/
theorem liveB_isSome {now : Nat} {s : SessionRec} (h : liveB now s = true) :
    s.reservationExpires.isSome = true := by
  cases hre : s.reservationExpires with
  | none => simp [liveB, hre] at h
  | some e => simp [hre]

/-- Unfolding of a successful query match. -/
theorem matchesQuery_spec {m d st et : String} {now : Nat} {s : SessionRec}
    (h : matchesQuery m d st et now s = true) :
    s.mentorId = m ∧ s.date = d ∧
      overlapQueryB s.startTime s.endTime st et = true ∧ activeB now s = true := by
  simpa [matchesQuery, Bool.and_eq_true, decide_eq_true_eq, and_assoc] using h

/-- Introduction rule for a query match. -/
theorem matchesQuery_intro {m d st et : String} {now : Nat} {s : SessionRec}
    (h1 : s.mentorId = m) (h2 : s.date = d)
    (h3 : overlapQueryB s.startTime s.endTime st et = true)
    (h4 : activeB now s = true) : matchesQuery m d st et now s = true := by
  simp [matchesQuery, h1, h2, h3, h4]

/-- If the availability check lets a booking proceed, the conflict query
found nothing. -/
theorem bookGuard_checkSlot_empty {m d st et : String} {uid : Option String}
    {now : Nat} {db : List SessionRec}
    (h : bookGuard (checkSlot m d st et uid now db) = true) :
    db.filter (matchesQuery m d st et now) = [] := by
  simp only [checkSlot] at h
  split at h
  · next hex => exact List.length_eq_zero.mp hex
  · next hex =>
    split at h
    · simp [bookGuard] at h
    · next hc =>
      split at h
      · next hr =>
        split at h
        · simp [bookGuard] at h
        · simp [bookGuard] at h
      · next hr =>
        exfalso
        apply hex
        rw [List.length_eq_zero, List.eq_nil_iff_forall_not_mem]
        intro x hx
        have hq := (List.mem_filter.mp hx).2
        rcases activeB_cases (matchesQuery_spec hq).2.2.2 with hcs | hrs
        · have hxc : x ∈ (db.filter (matchesQuery m d st et now)).filter
              (fun s => decide (s.status = SessionStatus.CONFIRMED)) :=
            List.mem_filter.mpr ⟨hx, decide_eq_true hcs⟩
          rw [List.length_eq_zero.mp (Nat.eq_zero_of_not_pos hc)] at hxc
          exact List.not_mem_nil x hxc
        · have hxr : x ∈ (db.filter (matchesQuery m d st et now)).filter
              (fun s => decide (s.status = SessionStatus.RESERVED)) :=
            List.mem_filter.mpr ⟨hx, decide_eq_true hrs.1⟩
          rw [List.length_eq_zero.mp (Nat.eq_zero_of_not_pos hr)] at hxr
          exact List.not_mem_nil x hxr

/-- Every result of the availability check body has one of four shapes:
plainly available, booked, reserved by the requesting user, or reserved
by someone else; the reserved shapes carry a live reservation found by
the query. -/
theorem checkSlot_cases (m d st et : String) (uid : Option String) (now : Nat)
    (db : List SessionRec) :
    checkSlot m d st et uid now db = { available := true } ∨
    checkSlot m d st et uid now db =
      { available := false, reason := some "This time slot is already booked" } ∨
    (∃ s ∈ db, s.status = SessionStatus.RESERVED ∧ liveB now s = true ∧
      matchesQuery m d st et now s = true ∧
      checkSlot m d st et uid now db =
        { available := true, reservedForCurrentUser := some true,
          reservationExpires := s.reservationExpires }) ∨
    (∃ s ∈ db, s.status = SessionStatus.RESERVED ∧ liveB now s = true ∧
      matchesQuery m d st et now s = true ∧
      checkSlot m d st et uid now db =
        { available := false, reason := some "This time slot is temporarily reserved",
          expiresAt := s.reservationExpires }) := by
  simp only [checkSlot]
  split
  · exact Or.inl rfl
  · next hex =>
    split
    · exact Or.inr (Or.inl rfl)
    · next hc =>
      split
      · next hr =>
        split
        · next u heq =>
          -- the query found a reservation of the requesting user
          refine Or.inr (Or.inr (Or.inl ⟨u, ?_, ?_, ?_, ?_, rfl⟩))
          all_goals {
            have hu : u ∈ (db.filter (matchesQuery m d st et now)).filter
                (fun s => decide (s.status = SessionStatus.RESERVED)) := by
              cases huid : uid with
              | none => rw [huid] at heq; exact absurd heq (by simp)
              | some v => rw [huid] at heq; exact List.mem_of_find?_eq_some heq
            have hures := of_decide_eq_true (List.mem_filter.mp hu).2
            have huex := List.mem_filter.mp (List.mem_filter.mp hu).1
            first
            | exact huex.1
            | exact hures
            | exact activeB_reserved (matchesQuery_spec huex.2).2.2.2 hures
            | exact huex.2
          }
        · next heq =>
          -- reserved by someone else: the head of the reserved list
          cases hrs : (db.filter (matchesQuery m d st et now)).filter
              (fun s => decide (s.status = SessionStatus.RESERVED)) with
          | nil => rw [hrs] at hr; exact absurd hr (by simp)
          | cons s0 t =>
            refine Or.inr (Or.inr (Or.inr ⟨s0, ?_, ?_, ?_, ?_, ?_⟩))
            · have hu : s0 ∈ (db.filter (matchesQuery m d st et now)).filter
                  (fun s => decide (s.status = SessionStatus.RESERVED)) := by
                rw [hrs]; exact List.mem_cons_self s0 t
              exact (List.mem_filter.mp (List.mem_filter.mp hu).1).1
            · have hu : s0 ∈ (db.filter (matchesQuery m d st et now)).filter
                  (fun s => decide (s.status = SessionStatus.RESERVED)) := by
                rw [hrs]; exact List.mem_cons_self s0 t
              exact of_decide_eq_true (List.mem_filter.mp hu).2
            · have hu : s0 ∈ (db.filter (matchesQuery m d st et now)).filter
                  (fun s => decide (s.status = SessionStatus.RESERVED)) := by
                rw [hrs]; exact List.mem_cons_self s0 t
              exact activeB_reserved
                (matchesQuery_spec (List.mem_filter.mp (List.mem_filter.mp hu).1).2).2.2.2
                (of_decide_eq_true (List.mem_filter.mp hu).2)
            · have hu : s0 ∈ (db.filter (matchesQuery m d st et now)).filter
                  (fun s => decide (s.status = SessionStatus.RESERVED)) := by
                rw [hrs]; exact List.mem_cons_self s0 t
              exact (List.mem_filter.mp (List.mem_filter.mp hu).1).2
            · simp [List.head?]
      · exact Or.inl rfl

/-- With distinct document ids, membership of a record's id among the ids
collected from the expired-hold query is exactly the expired-hold
predicate. -/
theorem contains_id_eq_expiredHold {now : Nat} {db : List SessionRec}
    (hids : (db.map (fun s => s._id)).Nodup) {s : SessionRec} (hs : s ∈ db) :
    ((db.filter (expiredHold now)).map (fun s => s._id)).contains s._id =
      expiredHold now s := by
  cases hexp : expiredHold now s with
  | true =>
    have hmem : s._id ∈ (db.filter (expiredHold now)).map (fun s => s._id) :=
      List.mem_map.mpr ⟨s, List.mem_filter.mpr ⟨hs, hexp⟩, rfl⟩
    exact List.elem_iff.mpr hmem
  | false =>
    cases hcon : ((db.filter (expiredHold now)).map (fun s => s._id)).contains s._id with
    | true =>
      exfalso
      rcases List.mem_map.mp (List.elem_iff.mp hcon) with ⟨t, htf, hteq⟩
      have ht : t ∈ db := (List.mem_filter.mp htf).1
      have : t = s := List.inj_on_of_nodup_map hids ht hs hteq
      rw [this] at htf
      rw [(List.mem_filter.mp htf).2] at hexp
      exact Bool.noConfusion hexp
    | false => rfl

/-- The cleanup sweep, as a single equation: it returns the two counts of
expired holds and keeps exactly the records that are not expired holds. -/
theorem cleanup_eq (now : Nat) (db : List SessionRec)
    (hids : (db.map (fun s => s._id)).Nodup) :
    cleanupExpiredReservations now db =
      (CleanupResult.ok (db.countP (expiredHold now)) (db.countP (expiredHold now)),
        db.filter (fun s => !(expiredHold now s))) := by
  simp only [cleanupExpiredReservations]
  split
  · next hpos =>
    refine Prod.ext ?_ ?_
    · have hcnt : db.countP
          (fun s => ((db.filter (expiredHold now)).map (fun s => s._id)).contains s._id) =
          db.countP (expiredHold now) := by
        refine List.countP_congr ?_
        intro x hx
        rw [contains_id_eq_expiredHold hids hx]
      have hlen : (db.filter (expiredHold now)).length = db.countP (expiredHold now) :=
        (List.countP_eq_length_filter _ _).symm
      simp only [hcnt, hlen]
    · refine List.filter_congr ?_
      intro x hx
      rw [contains_id_eq_expiredHold hids hx]
  · next hneg =>
    have hnil : db.filter (expiredHold now) = [] :=
      List.length_eq_zero.mp (Nat.eq_zero_of_not_pos hneg)
    have hall := List.filter_eq_nil_iff.mp hnil
    refine Prod.ext ?_ ?_
    · have : db.countP (expiredHold now) = 0 := by
        rw [List.countP_eq_length_filter, hnil]
        rfl
      simp only [this]
    · have : db.filter (fun s => !(expiredHold now s)) = db := by
        refine List.filter_eq_self.mpr ?_
        intro a ha
        simp [hall a ha]
      rw [this]

/-- A reservation live at a later instant is live at any earlier one. -/
theorem liveB_mono {t1 t2 : Nat} (h : t1 ≤ t2) {s : SessionRec}
    (hl : liveB t2 s = true) : liveB t1 s = true := by
  cases hre : s.reservationExpires with
  | none => simp [liveB, hre] at hl
  | some e =>
    simp only [liveB, hre, decide_eq_true_eq] at hl ⊢
    omega

/-- A record active at a later instant is active at any earlier one. -/
theorem activeB_mono {t1 t2 : Nat} (h : t1 ≤ t2) {s : SessionRec}
    (ha : activeB t2 s = true) : activeB t1 s = true := by
  rcases activeB_cases ha with hc | ⟨hr, hl⟩
  · simp [activeB, hc]
  · simp [activeB, hr, liveB_mono h hl]

/-- A reserved record with a live expiry is active. -/
theorem activeB_reserved_live {now : Nat} {s : SessionRec}
    (hs : s.status = SessionStatus.RESERVED) (hl : liveB now s = true) :
    activeB now s = true := by
  simp [activeB, hs, hl]

/-- Unfolding of a conflict between two records. -/
theorem conflictB_spec {now : Nat} {a b : SessionRec} (h : conflictB now a b = true) :
    a.mentorId = b.mentorId ∧ a.date = b.date ∧
      rangesOverlapB a.startTime a.endTime b.startTime b.endTime = true ∧
      activeB now a = true ∧ activeB now b = true := by
  simpa [conflictB, Bool.and_eq_true, decide_eq_true_eq, and_assoc] using h

/-- Introduction rule for a conflict between two records. -/
theorem conflictB_intro {now : Nat} {a b : SessionRec}
    (h1 : a.mentorId = b.mentorId) (h2 : a.date = b.date)
    (h3 : rangesOverlapB a.startTime a.endTime b.startTime b.endTime = true)
    (h4 : activeB now a = true) (h5 : activeB now b = true) :
    conflictB now a b = true := by
  simp [conflictB, h1, h2, h3, h4, h5]

/-- The cleanup sweep only removes records. -/
theorem cleanup_sublist (now : Nat) (db : List SessionRec) :
    ((cleanupExpiredReservations now db).2).Sublist db := by
  simp only [cleanupExpiredReservations]
  split
  · exact List.filter_sublist db
  · exact List.Sublist.refl db

/-- Confirming a live reservation creates no conflict on its left. -/
theorem conflict_confirm_left {now : Nat} {s b : SessionRec}
    (hs : s.status = SessionStatus.RESERVED) (hl : liveB now s = true)
    (h : conflictB now s b = false) :
    conflictB now { s with status := SessionStatus.CONFIRMED } b = false := by
  cases hc : conflictB now { s with status := SessionStatus.CONFIRMED } b with
  | false => rfl
  | true =>
    exfalso
    rcases conflictB_spec hc with ⟨h1, h2, h3, _, h5⟩
    dsimp only at h1 h2 h3
    rw [conflictB_intro h1 h2 h3 (activeB_reserved_live hs hl) h5] at h
    exact Bool.noConfusion h

/-- Confirming a live reservation creates no conflict on its right. -/
theorem conflict_confirm_right {now : Nat} {a s : SessionRec}
    (hs : s.status = SessionStatus.RESERVED) (hl : liveB now s = true)
    (h : conflictB now a s = false) :
    conflictB now a { s with status := SessionStatus.CONFIRMED } = false := by
  cases hc : conflictB now a { s with status := SessionStatus.CONFIRMED } with
  | false => rfl
  | true =>
    exfalso
    rcases conflictB_spec hc with ⟨h1, h2, h3, h4, _⟩
    dsimp only at h1 h2 h3
    rw [conflictB_intro h1 h2 h3 h4 (activeB_reserved_live hs hl)] at h
    exact Bool.noConfusion h

/-- Every modelled operation preserves well-formedness and the
no-conflict invariant. -/
theorem step_preserves {st st2 : DBState} (h : Step st st2)
    (hwf : WellFormedDB st.sessions) (hcf : conflictFree st.now st.sessions) :
    WellFormedDB st2.sessions ∧ conflictFree st2.now st2.sessions := by
  cases h with
  | tick t ht =>
    refine ⟨hwf, List.Pairwise.imp ?_ hcf⟩
    intro a b hab
    cases hc : conflictB t a b with
    | false => rfl
    | true =>
      exfalso
      rcases conflictB_spec hc with ⟨h1, h2, h3, h4, h5⟩
      rw [conflictB_intro h1 h2 h3 (activeB_mono ht h4) (activeB_mono ht h5)] at hab
      exact Bool.noConfusion hab
  | cleanup =>
    have hsub := cleanup_sublist st.now st.sessions
    exact ⟨fun s hs => hwf s (hsub.subset hs), List.Pairwise.sublist hsub hcf⟩
  | book rec uid hg hst hwfr =>
    constructor
    · intro s hs
      rcases List.mem_cons.mp hs with rfl | hs2
      · exact hwfr
      · exact hwf s hs2
    · refine List.pairwise_cons.mpr ⟨?_, hcf⟩
      intro b hb
      cases hc : conflictB st.now rec b with
      | false => rfl
      | true =>
        exfalso
        rcases conflictB_spec hc with ⟨h1, h2, h3, _, h5⟩
        have hovb : rangesOverlapB b.startTime b.endTime rec.startTime rec.endTime = true := by
          rw [rangesOverlapB_symm]
          exact h3
        have hoq : overlapQueryB b.startTime b.endTime rec.startTime rec.endTime = true :=
          (overlapQueryB_eq_overlap _ _ _ _ (hwf b hb) hwfr).mpr hovb
        have hmq : matchesQuery rec.mentorId rec.date rec.startTime rec.endTime st.now b = true :=
          matchesQuery_intro h1.symm h2.symm hoq h5
        have hnil := bookGuard_checkSlot_empty hg
        have hbmem : b ∈ st.sessions.filter
            (matchesQuery rec.mentorId rec.date rec.startTime rec.endTime st.now) :=
          List.mem_filter.mpr ⟨hb, hmq⟩
        rw [hnil] at hbmem
        exact List.not_mem_nil b hbmem
  | confirm l r s hdb hs hl =>
    rw [hdb] at hwf hcf
    constructor
    · intro x hx
      rcases List.mem_append.mp hx with hxl | hxr
      · exact hwf x (List.mem_append_left _ hxl)
      · rcases List.mem_cons.mp hxr with rfl | hxr2
        · exact hwf s (List.mem_append_right _ (List.mem_cons_self _ _))
        · exact hwf x (List.mem_append_right _ (List.mem_cons_of_mem _ hxr2))
    · obtain ⟨hpl, hpsr, hcross⟩ := List.pairwise_append.mp hcf
      obtain ⟨hsr, hpr⟩ := List.pairwise_cons.mp hpsr
      refine List.pairwise_append.mpr
        ⟨hpl, List.pairwise_cons.mpr ⟨?_, hpr⟩, ?_⟩
      · intro b hb
        exact conflict_confirm_left hs hl (hsr b hb)
      · intro a ha b hb
        rcases List.mem_cons.mp hb with rfl | hb2
        · exact conflict_confirm_right hs hl (hcross a ha s (List.mem_cons_self _ _))
        · exact hcross a ha b (List.mem_cons_of_mem _ hb2)

/-- C1: for every existing session record and queried slot with
well-formed time ranges, the three-way disjunction used by
isSessionAvailable's query (comparing times as strings) holds if and
only if the existing range and the queried range overlap: it is false
for every non-overlapping pair and true for every overlapping pair. -/
theorem overlap_predicate_correct (eStart eEnd qStart qEnd : String)
    (he : strLt eStart eEnd = true) (hq : strLt qStart qEnd = true) :
    overlapQueryB eStart eEnd qStart qEnd = true ↔
      rangesOverlapB eStart eEnd qStart qEnd = true :=
  overlapQueryB_eq_overlap eStart eEnd qStart qEnd he hq

/-- Witness for C1 at a concrete overlapping pair of ranges. -/
theorem overlap_predicate_correct_witness :
    strLt "10:00" "11:00" = true ∧ strLt "10:30" "11:30" = true ∧
    (overlapQueryB "10:00" "11:00" "10:30" "11:30" = true ↔
      rangesOverlapB "10:00" "11:00" "10:30" "11:30" = true) :=
  ⟨by decide, by decide,
    overlap_predicate_correct "10:00" "11:00" "10:30" "11:30" (by decide) (by decide)⟩

/-- C2: if every session of the requested mentor and date whose range
overlaps the requested slot is a reserved session whose hold has
expired, the availability check reports the slot available. -/
theorem expired_reservations_leave_slot_available
    (slotInfo m d stq etq : String) (uid : Option String) (now : Nat)
    (db : List SessionRec)
    (hp : parseSlot slotInfo = some (m, d, stq, etq))
    (hq : strLt stq etq = true)
    (hwf : WellFormedDB db)
    (hall : ∀ s ∈ db, s.mentorId = m → s.date = d →
      rangesOverlapB s.startTime s.endTime stq etq = true →
      s.status = SessionStatus.RESERVED ∧ liveB now s = false) :
    (isSessionAvailable slotInfo uid now db).1.available = true := by
  have hnil : db.filter (matchesQuery m d stq etq now) = [] := by
    rw [List.filter_eq_nil_iff]
    intro s hs hm
    rcases matchesQuery_spec hm with ⟨h1, h2, h3, h4⟩
    have hov := (overlapQueryB_eq_overlap _ _ _ _ (hwf s hs) hq).mp h3
    rcases hall s hs h1 h2 hov with ⟨hres, hdead⟩
    rcases activeB_cases h4 with hcfd | hlive
    · rw [hres] at hcfd
      exact SessionStatus.noConfusion hcfd
    · rw [hlive.2] at hdead
      exact Bool.noConfusion hdead
  simp [isSessionAvailable, hp, checkSlot, hnil]

/-- Witness for C2: a store holding only an expired reservation of the
requested slot. -/
theorem expired_reservations_leave_slot_available_witness :
    parseSlot "m_2024-05-05_10:00_11:00" =
      some ("m", "2024-05-05", "10:00", "11:00") ∧
    strLt "10:00" "11:00" = true ∧
    WellFormedDB [recExpired] ∧
    (∀ s ∈ [recExpired], s.mentorId = "m" → s.date = "2024-05-05" →
      rangesOverlapB s.startTime s.endTime "10:00" "11:00" = true →
      s.status = SessionStatus.RESERVED ∧ liveB 10 s = false) ∧
    (isSessionAvailable "m_2024-05-05_10:00_11:00" none 10 [recExpired]).1.available = true :=
  ⟨by decide, by decide, by unfold WellFormedDB; decide, by decide,
    expired_reservations_leave_slot_available "m_2024-05-05_10:00_11:00"
      "m" "2024-05-05" "10:00" "11:00" none 10 [recExpired]
      (by decide) (by decide) (by unfold WellFormedDB; decide) (by decide)⟩

/-- C5: with distinct document ids, the cleanup sweep removes exactly the
reserved sessions whose expiry lies strictly before now, leaves every
other record in place and in order, and reports the number of removed
holds as its deleted count. -/
theorem cleanup_deletes_exactly_expired_holds (now : Nat) (db : List SessionRec)
    (hids : (db.map (fun s => s._id)).Nodup) :
    (cleanupExpiredReservations now db).2 =
      db.filter (fun s => !(expiredHold now s)) ∧
    (cleanupExpiredReservations now db).1 =
      CleanupResult.ok (db.countP (expiredHold now)) (db.countP (expiredHold now)) := by
  rw [cleanup_eq now db hids]
  exact ⟨rfl, rfl⟩

/-- Witness for C5: a store with a live hold, a confirmed session and an
expired hold. -/
theorem cleanup_deletes_exactly_expired_holds_witness :
    (([recOwnHold, recConfirmed, recExpired].map (fun s => s._id)).Nodup) ∧
    (cleanupExpiredReservations 10 [recOwnHold, recConfirmed, recExpired]).2 =
      [recOwnHold, recConfirmed, recExpired].filter (fun s => !(expiredHold 10 s)) ∧
    (cleanupExpiredReservations 10 [recOwnHold, recConfirmed, recExpired]).1 =
      CleanupResult.ok
        ([recOwnHold, recConfirmed, recExpired].countP (expiredHold 10))
        ([recOwnHold, recConfirmed, recExpired].countP (expiredHold 10)) :=
  ⟨by decide,
    cleanup_deletes_exactly_expired_holds 10 [recOwnHold, recConfirmed, recExpired]
      (by decide)⟩

/-- C6: when any of the four underscore-separated slot components is
missing or empty, the availability check returns the invalid-slot
result, and the result does not depend on the session store. -/
theorem invalid_slot_info_rejected_without_query
    (slotInfo : String) (uid : Option String) (now : Nat) (db : List SessionRec)
    (h : parseSlot slotInfo = none) :
    (isSessionAvailable slotInfo uid now db).1 =
      { available := false, reason := some "Invalid slot information" } ∧
    ∀ db2 : List SessionRec,
      (isSessionAvailable slotInfo uid now db).1 =
        (isSessionAvailable slotInfo uid now db2).1 := by
  constructor
  · simp [isSessionAvailable, h]
  · intro db2
    simp [isSessionAvailable, h]

/-- Witness for C6: a slot descriptor with an empty date component. -/
theorem invalid_slot_info_rejected_without_query_witness :
    parseSlot "m__10:00_11:00" = none ∧
    (isSessionAvailable "m__10:00_11:00" none 0 []).1 =
      { available := false, reason := some "Invalid slot information" } ∧
    (isSessionAvailable "m__10:00_11:00" none 0 []).1 =
      (isSessionAvailable "m__10:00_11:00" none 0 [recOwnHold]).1 :=
  ⟨by decide,
    (invalid_slot_info_rejected_without_query "m__10:00_11:00" none 0 [] (by decide)).1,
    (invalid_slot_info_rejected_without_query "m__10:00_11:00" none 0 [] (by decide)).2
      [recOwnHold]⟩

/-- C8: a database error inside either operation is caught at the
boundary and converted into a result object (the cleanup result carries
its success flag, the availability result its reason); no error
propagates, and the successful cleanup path reports success. -/
theorem errors_converted_at_boundary :
    ∀ (now : Nat) (e : String) (slotInfo : String) (uid : Option String)
      (db : List SessionRec),
      cleanupExpiredReservationsE now (Except.error e) = CleanupResult.err e ∧
      (cleanupExpiredReservationsE now (Except.error e)).success = false ∧
      (cleanupExpiredReservationsE now (Except.ok db)).success = true ∧
      isSessionAvailableE slotInfo uid now (Except.error e) =
        { available := false, reason := some "Error checking availability" } := by
  intro now e slotInfo uid db
  refine ⟨rfl, rfl, ?_, rfl⟩
  simp only [cleanupExpiredReservationsE, cleanupExpiredReservations]
  split <;> rfl

/-- C10: the availability check never changes the session store: the
store after the call is the store before it, on every input. -/
theorem isSessionAvailable_read_only :
    ∀ (slotInfo : String) (uid : Option String) (now : Nat) (db : List SessionRec),
      (isSessionAvailable slotInfo uid now db).2 = db := by
  intro slotInfo uid now db
  cases h : parseSlot slotInfo with
  | none => simp [isSessionAvailable, h]
  | some q =>
    rcases q with ⟨m, d, stq, etq⟩
    simp [isSessionAvailable, h]

/-- C3: in every database state reachable under the modelled operations
(time passing, cleanup, booking after a passing availability check,
confirmation of a live reservation), no two session records of the same
mentor and date have overlapping time ranges while both count against
the slot: both confirmed, one confirmed, or both live reservations. -/
theorem reachable_states_conflict_free (st : DBState) (h : Reachable st) :
    conflictFree st.now st.sessions := by
  have key : WellFormedDB st.sessions ∧ conflictFree st.now st.sessions := by
    unfold Reachable at h
    induction h with
    | refl => exact ⟨fun s hs => absurd hs (List.not_mem_nil s), List.Pairwise.nil⟩
    | tail _ hstep ih => exact step_preserves hstep ih.1 ih.2
  exact key.2

/-- Witness for C3: the state reached by one successful booking. -/
theorem reachable_states_conflict_free_witness :
    Reachable ⟨[bookedA], 0⟩ ∧ conflictFree 0 [bookedA] :=
  ⟨Relation.ReflTransGen.single
      (Step.book ⟨[], 0⟩ bookedA (some "u1") (by decide) (by decide) (by decide)),
    reachable_states_conflict_free ⟨[bookedA], 0⟩
      (Relation.ReflTransGen.single
        (Step.book ⟨[], 0⟩ bookedA (some "u1") (by decide) (by decide) (by decide)))⟩

/-- C7: an unavailable result always carries a reason, and when the
reason is a live reservation held by another user the result also
carries that reservation's expiry instant. -/
theorem unavailable_result_carries_reason
    (slotInfo : String) (uid : Option String) (now : Nat) (db : List SessionRec)
    (h : (isSessionAvailable slotInfo uid now db).1.available = false) :
    (isSessionAvailable slotInfo uid now db).1.reason.isSome = true ∧
    ((isSessionAvailable slotInfo uid now db).1.reason =
        some "This time slot is temporarily reserved" →
      (isSessionAvailable slotInfo uid now db).1.expiresAt.isSome = true) := by
  cases hp : parseSlot slotInfo with
  | none =>
    have hr : (isSessionAvailable slotInfo uid now db).1 =
        { available := false, reason := some "Invalid slot information" } := by
      simp [isSessionAvailable, hp]
    rw [hr]
    exact ⟨rfl, fun heq => absurd (Option.some.inj heq) (by decide)⟩
  | some q =>
    rcases q with ⟨m, d, stq, etq⟩
    have h1 : (isSessionAvailable slotInfo uid now db).1 =
        checkSlot m d stq etq uid now db := by
      simp [isSessionAvailable, hp]
    rw [h1] at h ⊢
    rcases checkSlot_cases m d stq etq uid now db with
      hc | hc | ⟨s, _, _, _, _, hc⟩ | ⟨s, _, _, hlv, _, hc⟩
    · rw [hc] at h
      exact Bool.noConfusion h
    · rw [hc]
      exact ⟨rfl, fun heq => absurd (Option.some.inj heq) (by decide)⟩
    · rw [hc] at h
      exact Bool.noConfusion h
    · rw [hc]
      exact ⟨rfl, fun _ => liveB_isSome hlv⟩

/-- Witness for C7: a slot reserved by another user. -/
theorem unavailable_result_carries_reason_witness :
    (isSessionAvailable "m_2024-05-05_10:00_11:00" none 10 [recOwnHold]).1.available = false ∧
    (isSessionAvailable "m_2024-05-05_10:00_11:00" none 10 [recOwnHold]).1.reason.isSome = true ∧
    (isSessionAvailable "m_2024-05-05_10:00_11:00" none 10 [recOwnHold]).1.expiresAt.isSome = true :=
  ⟨by decide,
    (unavailable_result_carries_reason "m_2024-05-05_10:00_11:00" none 10 [recOwnHold]
      (by decide)).1,
    (unavailable_result_carries_reason "m_2024-05-05_10:00_11:00" none 10 [recOwnHold]
      (by decide)).2 (by decide)⟩

/-- Counterexample to C9 as stated: the store holds both a confirmed
session and a live reservation of user u1 overlapping the requested
slot; the hypothesis of the claim is satisfied, yet the check reports
the slot unavailable rather than available-for-the-current-user. -/
theorem own_hold_claim_counterexample :
    recOwnHold.menteeId = "u1" ∧
    recOwnHold.status = SessionStatus.RESERVED ∧
    liveB 10 recOwnHold = true ∧
    matchesQuery "m" "2024-05-05" "10:00" "11:00" 10 recOwnHold = true ∧
    recOwnHold ∈ [recConfirmed, recOwnHold] ∧
    parseSlot "m_2024-05-05_10:00_11:00" = some ("m", "2024-05-05", "10:00", "11:00") ∧
    (isSessionAvailable "m_2024-05-05_10:00_11:00" (some "u1") 10
      [recConfirmed, recOwnHold]).1.available = false ∧
    (isSessionAvailable "m_2024-05-05_10:00_11:00" (some "u1") 10
      [recConfirmed, recOwnHold]).1.reservedForCurrentUser = none := by
  decide

/-- C9 amended: when a userId is supplied, some overlapping non-expired
reserved session has menteeId equal to it, and no overlapping confirmed
session exists, the check returns available with
reservedForCurrentUser and the found reservation's expiry. -/
theorem own_live_hold_reports_available
    (slotInfo m d stq etq uid : String) (now : Nat) (db : List SessionRec)
    (hp : parseSlot slotInfo = some (m, d, stq, etq))
    (hex : ∃ s ∈ db, matchesQuery m d stq etq now s = true ∧
      s.status = SessionStatus.RESERVED ∧ s.menteeId = uid)
    (hnoconf : ∀ s ∈ db, matchesQuery m d stq etq now s = true →
      s.status ≠ SessionStatus.CONFIRMED) :
    ∃ s ∈ db, s.status = SessionStatus.RESERVED ∧ s.menteeId = uid ∧
      matchesQuery m d stq etq now s = true ∧
      (isSessionAvailable slotInfo (some uid) now db).1 =
        { available := true, reservedForCurrentUser := some true,
          reservationExpires := s.reservationExpires } := by
  have h1 : (isSessionAvailable slotInfo (some uid) now db).1 =
      checkSlot m d stq etq (some uid) now db := by
    simp [isSessionAvailable, hp]
  obtain ⟨s0, hs0db, hs0m, hs0r, hs0u⟩ := hex
  have hs0ex : s0 ∈ db.filter (matchesQuery m d stq etq now) :=
    List.mem_filter.mpr ⟨hs0db, hs0m⟩
  have hexne : ¬ (db.filter (matchesQuery m d stq etq now)).length = 0 := by
    intro h0
    rw [List.length_eq_zero.mp h0] at hs0ex
    exact List.not_mem_nil _ hs0ex
  have hcs : (db.filter (matchesQuery m d stq etq now)).filter
      (fun s => decide (s.status = SessionStatus.CONFIRMED)) = [] := by
    rw [List.filter_eq_nil_iff]
    intro a ha hdec
    have hamem := List.mem_filter.mp ha
    exact hnoconf a hamem.1 hamem.2 (of_decide_eq_true hdec)
  have hcsz : ¬ ((db.filter (matchesQuery m d stq etq now)).filter
      (fun s => decide (s.status = SessionStatus.CONFIRMED))).length > 0 := by
    rw [hcs]
    decide
  have hrs0 : s0 ∈ (db.filter (matchesQuery m d stq etq now)).filter
      (fun s => decide (s.status = SessionStatus.RESERVED)) :=
    List.mem_filter.mpr ⟨hs0ex, decide_eq_true hs0r⟩
  have hrsz : ((db.filter (matchesQuery m d stq etq now)).filter
      (fun s => decide (s.status = SessionStatus.RESERVED))).length > 0 := by
    refine List.length_pos.mpr ?_
    intro hnil
    rw [hnil] at hrs0
    exact List.not_mem_nil _ hrs0
  have hfound : (((db.filter (matchesQuery m d stq etq now)).filter
      (fun s => decide (s.status = SessionStatus.RESERVED))).find?
        (fun s => decide (s.menteeId = uid))).isSome = true :=
    List.find?_isSome.mpr ⟨s0, hrs0, decide_eq_true hs0u⟩
  obtain ⟨u, hu⟩ := Option.isSome_iff_exists.mp hfound
  have humem := List.mem_of_find?_eq_some hu
  have huuid : u.menteeId = uid := by simpa using List.find?_some hu
  have hures : u.status = SessionStatus.RESERVED :=
    of_decide_eq_true (List.mem_filter.mp humem).2
  have huex := List.mem_filter.mp (List.mem_filter.mp humem).1
  refine ⟨u, huex.1, hures, huuid, huex.2, ?_⟩
  rw [h1]
  simp only [checkSlot]
  rw [if_neg hexne, if_neg hcsz, if_pos hrsz]
  simp only [hu]

/-- Witness for the amended C9: the store holds only the user's own live
reservation. -/
theorem own_live_hold_reports_available_witness :
    ∃ s ∈ [recOwnHold], s.status = SessionStatus.RESERVED ∧ s.menteeId = "u1" ∧
      matchesQuery "m" "2024-05-05" "10:00" "11:00" 10 s = true ∧
      (isSessionAvailable "m_2024-05-05_10:00_11:00" (some "u1") 10 [recOwnHold]).1 =
        { available := true, reservedForCurrentUser := some true,
          reservationExpires := s.reservationExpires } :=
  own_live_hold_reports_available "m_2024-05-05_10:00_11:00" "m" "2024-05-05"
    "10:00" "11:00" "u1" 10 [recOwnHold] (by decide) (by decide) (by decide)

/-- Counterexample to C4 as stated: with the check and the insert as
separate atomic database operations, the two clients can interleave
check1, check2, insert1, insert2; both check-then-book sequences succeed
for overlapping slots of the same mentor and date, and the final store
violates the no-conflict invariant. -/
theorem concurrent_double_booking_possible :
    Relation.ReflTransGen (CStep reqA reqB)
      ⟨[], 0, CPhase.start, CPhase.start⟩
      ⟨[bookedB, bookedA], 0, CPhase.done true, CPhase.done true⟩ ∧
    conflictB 0 bookedA bookedB = true ∧
    ¬ conflictFree 0 [bookedB, bookedA] := by
  refine ⟨?_, by decide, ?_⟩
  · refine Relation.ReflTransGen.head (@CStep.check1 reqA reqB [] 0 CPhase.start) ?_
    refine Relation.ReflTransGen.head (@CStep.check2 reqA reqB [] 0 _) ?_
    refine Relation.ReflTransGen.head
      (@CStep.insert1 reqA reqB [] 0 _ _ "sidA" 50 (by decide)) ?_
    exact Relation.ReflTransGen.single
      (@CStep.insert2 reqA reqB [bookedA] 0 _ _ "sidB" 60 (by decide))
  · intro hcf
    have h2 := List.rel_of_pairwise_cons hcf (List.mem_cons_self bookedA [])
    exact absurd h2 (by decide)

/-- C4 amended: when check-then-book is atomic, a successful booking
blocks every later overlapping booking: once a live reservation of the
slot is in the store, the availability check for any overlapping slot of
the same mentor and date never lets another booking proceed. -/
theorem atomic_check_blocks_overlapping_booking
    (m d s1 e1 s2 e2 : String) (uid2 : Option String) (now exp : Nat)
    (db : List SessionRec) (rec : SessionRec)
    (hm : rec.mentorId = m) (hd : rec.date = d)
    (hs1 : rec.startTime = s1) (he1 : rec.endTime = e1)
    (hst : rec.status = SessionStatus.RESERVED)
    (hexp : rec.reservationExpires = some exp) (hlive : now < exp)
    (hwf1 : strLt s1 e1 = true) (hwf2 : strLt s2 e2 = true)
    (hov : rangesOverlapB s1 e1 s2 e2 = true) :
    bookGuard (checkSlot m d s2 e2 uid2 now (rec :: db)) = false := by
  cases hg : bookGuard (checkSlot m d s2 e2 uid2 now (rec :: db)) with
  | false => rfl
  | true =>
    exfalso
    have hnil := bookGuard_checkSlot_empty hg
    have hlv : liveB now rec = true := by simp [liveB, hexp, hlive]
    have hact : activeB now rec = true := activeB_reserved_live hst hlv
    have hoq : overlapQueryB rec.startTime rec.endTime s2 e2 = true := by
      rw [hs1, he1]
      exact (overlapQueryB_eq_overlap s1 e1 s2 e2 hwf1 hwf2).mpr hov
    have hmq : matchesQuery m d s2 e2 now rec = true :=
      matchesQuery_intro hm hd hoq hact
    have hmem : rec ∈ (rec :: db).filter (matchesQuery m d s2 e2 now) :=
      List.mem_filter.mpr ⟨List.mem_cons_self rec db, hmq⟩
    rw [hnil] at hmem
    exact List.not_mem_nil rec hmem

/-- Witness for the amended C4: after client one books, the check for
client two's overlapping slot refuses the booking. -/
theorem atomic_check_blocks_overlapping_booking_witness :
    (0 : Nat) < 50 ∧ rangesOverlapB "10:00" "11:00" "10:30" "11:30" = true ∧
    bookGuard (checkSlot "m1" "2025-01-01" "10:30" "11:30" (some "u2") 0 [bookedA]) = false :=
  ⟨by decide, by decide,
    atomic_check_blocks_overlapping_booking "m1" "2025-01-01" "10:00" "11:00"
      "10:30" "11:30" (some "u2") 0 50 [] bookedA (by decide) (by decide) (by decide)
      (by decide) (by decide) (by decide) (by decide) (by decide) (by decide) (by decide)⟩
